import Mathlib

/-!
Verification model of the friend-request subsystem of the Convo repository.

The source of truth is the controller code embedded in the implementation
guide (src/unnamed/part_000): the Mongoose schemas (User, FriendRequest) and
the five handlers getRecommendedUsers, sendFriendRequest, acceptFriendRequest,
getFriendRequests, getMyFriends.

Modelling conventions:
- MongoDB ObjectIds are Nat.
- A collection is a List of records; Model.find / findOne / findById become
  List.filter / List.find?.
- The FriendRequest schema (part_000 lines 54-70) declares the status path
  with a CAPITAL S: the field is written Status in the schema, while the
  accept handler (line 247) assigns the lowercase plain property status and
  the incoming-request query (line 278) filters on the lowercase path status.
  JavaScript object keys are case sensitive, so these are two different
  paths. The record below carries both: Status is the schema path that is
  persisted, and status models the lowercase non-schema property. The
  repository pins Mongoose v9.0.2 (src/unnamed/part_001 line 35): documents
  default to strict mode, so an assignment to a non-schema path is never
  persisted by save(), and strictQuery defaults to false, so a filter on a
  non-schema path is passed through literally to MongoDB.
- An HTTP reply res.status(c).json(body) becomes a Response record holding
  the numeric code and the message string (the bodies of these handlers that
  carry data are modelled by the functions returning that data directly).
-/

/-- The three values of the FriendRequest status enum
(part_000 line 67: pending, accepted, rejected). -/
inductive RStatus where
  | pending
  | accepted
  | rejected
deriving DecidableEq, Repr

/-- A stored User document, after the schema of part_000 lines 25-41:
profile fields, credentials and the friends array of user ids. -/
structure User where
  id : Nat
  fullName : String
  email : String
  password : String
  bio : String
  profilePic : String
  nativeLanguage : String
  learningLanguage : String
  location : String
  isOnboarded : Bool
  friends : List Nat
deriving DecidableEq, Repr

/-- A stored FriendRequest document, after the schema of part_000
lines 54-70. Status (capital S) is the schema path, defaulting to pending.
The extra field status models the lowercase plain JS property of the same
document object: it is NOT a schema path, so it is none on every document
built by the schema, and a save() never persists a write to it. -/
structure FriendRequest where
  id : Nat
  sender : Nat
  recipient : Nat
  Status : RStatus := RStatus.pending
  status : Option RStatus := none
deriving DecidableEq, Repr

/-- The database: the two collections, plus a counter supplying fresh
ObjectIds for newly created FriendRequest documents. -/
structure Store where
  users : List User
  requests : List FriendRequest
  nextId : Nat
deriving DecidableEq, Repr

/-- User.findById. -/
def findUser (s : Store) (uid : Nat) : Option User :=
  s.users.find? (fun u => u.id == uid)

/-- FriendRequest.findById. -/
def findRequest (s : Store) (rid : Nat) : Option FriendRequest :=
  s.requests.find? (fun r => r.id == rid)

/-- res.status(code).json with a message body. -/
structure Response where
  code : Nat
  message : String
deriving DecidableEq, Repr

/-- The bidirectional existing-request predicate of sendFriendRequest
(part_000 lines 191-196): an $or of (sender, recipient) in both orders. -/
def requestBetween (myId recipientId : Nat) (r : FriendRequest) : Bool :=
  (r.sender == myId && r.recipient == recipientId) ||
  (r.sender == recipientId && r.recipient == myId)

/-- sendFriendRequest (part_000 lines 166-213). Checks, in order:
self-request (400), recipient existence (404), already friends (400),
existing request in either direction regardless of status (400); otherwise
creates one FriendRequest with the schema defaults (Status pending) and
replies 201 with a fixed message. -/
def sendFriendRequest (s : Store) (myId recipientId : Nat) : Response × Store :=
  if myId == recipientId then
    (⟨400, "You cannot send a friend request to yourself."⟩, s)
  else
    match findUser s recipientId with
    | none => (⟨404, "Recipient not found."⟩, s)
    | some recipient =>
      if recipient.friends.contains myId then
        (⟨400, "You are already friends with this user."⟩, s)
      else if s.requests.any (requestBetween myId recipientId) then
        (⟨400, "A friend request already exists between you and this user."⟩, s)
      else
        let fr : FriendRequest := { id := s.nextId, sender := myId, recipient := recipientId }
        (⟨201, "Friend request sent successfully."⟩,
          { s with requests := s.requests ++ [fr], nextId := s.nextId + 1 })

/-- The per-document effect of $addToSet friends newFriend on the user with
id targetId: append unless already present; other users are untouched. -/
def addFriendFn (targetId newFriend : Nat) (u : User) : User :=
  if u.id == targetId then
    if u.friends.contains newFriend then u
    else { u with friends := u.friends ++ [newFriend] }
  else u

/-- User.findByIdAndUpdate(targetId, $addToSet friends newFriend)
(part_000 lines 251-257): appends newFriend to the friends array of the
user with id targetId unless already present; a no-op on every other user
and when no user has that id. -/
def addToSetFriends (s : Store) (targetId newFriend : Nat) : Store :=
  { s with users := s.users.map (addFriendFn targetId newFriend) }

/-- Writing the saved document back into the collection at its id. -/
def replaceReqFn (rid : Nat) (saved : FriendRequest) (r : FriendRequest) : FriendRequest :=
  if r.id == rid then saved else r

/-- Document.save() as called by the accept handler (part_000 line 248),
under default strict mode. The handler only assigned the lowercase plain
property status (line 247), which is not a schema path - the schema declares
Status with a capital S (line 65) - so no schema path was modified and the
persisted document keeps its stored fields; the non-schema property is
dropped. -/
def saveStrictMode (_inMemory stored : FriendRequest) : FriendRequest :=
  stored

/-- acceptFriendRequest (part_000 lines 228-260). Looks the request up by
id (404 when absent), rejects any caller other than the stored recipient
(403), then assigns the lowercase status property, saves (which persists no
schema path, see saveStrictMode), and $addToSet-s each user into the other
users friends array, replying 200. -/
def acceptFriendRequest (s : Store) (callerId requestId : Nat) : Response × Store :=
  match findRequest s requestId with
  | none => (⟨404, "Friend request not found"⟩, s)
  | some fr =>
    if fr.recipient != callerId then
      (⟨403, "You are not authorized to accept this friend request"⟩, s)
    else
      let inMemory : FriendRequest := { fr with status := some RStatus.accepted }
      let saved : FriendRequest := saveStrictMode inMemory fr
      let s1 : Store :=
        { s with requests := s.requests.map (replaceReqFn requestId saved) }
      let s2 : Store := addToSetFriends s1 fr.sender fr.recipient
      let s3 : Store := addToSetFriends s2 fr.recipient fr.sender
      (⟨200, "Friend request accepted"⟩, s3)

/-- The public projection used by populate in getFriendRequests and
getMyFriends (part_000 lines 279 and 301): the select string names
fullName, profilePic, nativeLanguage and learningLanguages; the last is not
a schema path of User (the schema has learningLanguage, singular), so the
populated document carries only the id and the three existing fields. -/
structure SenderPublic where
  uid : Nat
  fullName : String
  profilePic : String
  nativeLanguage : String
deriving DecidableEq, Repr

/-- Apply the populate projection to a stored user. -/
def publicOf (u : User) : SenderPublic :=
  ⟨u.id, u.fullName, u.profilePic, u.nativeLanguage⟩

/-- One element of the getFriendRequests reply: the request together with
the populated sender (none when the referenced user is missing). -/
structure IncomingItem where
  request : FriendRequest
  senderProfile : Option SenderPublic
deriving DecidableEq, Repr

/-- getFriendRequests (part_000 lines 275-282):
FriendRequest.find on recipient = caller and on the lowercase path status =
pending. The lowercase path is not in the schema; with strictQuery false
(the Mongoose v9 default) the condition is passed through to MongoDB as a
literal equality on the status field of the stored document. Each match is
populated with the sender projection. -/
def getFriendRequests (s : Store) (uid : Nat) : List IncomingItem :=
  (s.requests.filter
      (fun r => r.recipient == uid && r.status == some RStatus.pending)).map
    (fun r => ⟨r, (findUser s r.sender).map publicOf⟩)

/-- getMyFriends (part_000 lines 298-304): finds the caller, then populates
each entry of the friends array with the public projection; entries whose
user no longer exists resolve to nothing. -/
def getMyFriends (s : Store) (uid : Nat) : Option (List SenderPublic) :=
  (findUser s uid).map (fun u =>
    u.friends.filterMap (fun fid => (findUser s fid).map publicOf))

/-- getRecommendedUsers (part_000 lines 137-150): User.find with the $and
of (id not the caller), (id not in the callers friends) and isOnboarded,
WITH NO PROJECTION: the reply carries the full stored User records. -/
def getRecommendedUsers (s : Store) (me : User) : List User :=
  s.users.filter (fun u =>
    u.id != me.id && !(me.friends.contains u.id) && u.isOnboarded)

/-- The two mutating operations, for reachability statements. -/
inductive Op where
  | send (callerId recipientId : Nat)
  | accept (callerId requestId : Nat)
deriving DecidableEq, Repr

/-- The state transition of one operation (the response is discarded). -/
def applyOp (s : Store) : Op → Store
  | Op.send a b => (sendFriendRequest s a b).2
  | Op.accept a r => (acceptFriendRequest s a r).2

/-- Run a sequence of operations. -/
def runOps (s : Store) (ops : List Op) : Store :=
  ops.foldl applyOp s

/-! ### Concrete fixtures for witnesses -/

/-- A stored user with the given id and friends array; the credential
fields hold representative literals. -/
def mkUser (uid : Nat) (fs : List Nat) : User :=
  { id := uid, fullName := "user", email := "user@mail.test",
    password := "bcryptHash", bio := "", profilePic := "pic",
    nativeLanguage := "en", learningLanguage := "de", location := "",
    isOnboarded := true, friends := fs }

/-- The pending request of the fixture store: user 1 asked user 2. -/
def pendReq : FriendRequest := { id := 0, sender := 1, recipient := 2 }

/-- Fixture: two users, one pending request from 1 to 2. -/
def baseStore : Store :=
  { users := [mkUser 1 [], mkUser 2 []], requests := [pendReq], nextId := 1 }

/-! ### Helper lemmas -/

theorem find?_map_key {α : Type} (key : α → Nat) (F : α → α)
    (hF : ∀ x, key (F x) = key x) (l : List α) (k : Nat) :
    (l.map F).find? (fun x => key x == k) = (l.find? (fun x => key x == k)).map F := by
  induction l with
  | nil => rfl
  | cons x xs ih =>
    by_cases h : (key x == k) = true
    · simp only [List.map_cons, List.find?, hF, h]
      rfl
    · rw [Bool.not_eq_true] at h
      simp only [List.map_cons, List.find?, hF, h, ih]

theorem addFriendFn_keeps_id (t f : Nat) (u : User) :
    (addFriendFn t f u).id = u.id := by
  simp only [addFriendFn]
  split
  · split <;> rfl
  · rfl

theorem addFriendFn_friends_subset (t f : Nat) (u : User) :
    u.friends ⊆ (addFriendFn t f u).friends := by
  simp only [addFriendFn]
  split
  · split
    · exact fun x hx => hx
    · exact List.subset_append_left _ _
  · exact fun x hx => hx

theorem addFriendFn_other (t f : Nat) (u : User) (h : u.id ≠ t) :
    addFriendFn t f u = u := by
  simp [addFriendFn, h]

theorem replaceReqFn_keeps_id (rid : Nat) (saved : FriendRequest)
    (hs : saved.id = rid) (r : FriendRequest) :
    (replaceReqFn rid saved r).id = r.id := by
  simp only [replaceReqFn]
  split
  · next hbeq =>
      have hid : r.id = rid := eq_of_beq hbeq
      rw [hs, hid]
  · rfl

/-! ### Claims C1, C2, C3 -/

/-- C1: for distinct users a and b with b existing, when some FriendRequest
already exists between them in either direction (whatever its status),
sendFriendRequest replies with HTTP 400 carrying one of the two conflict
messages, and the store (in particular the request collection) is unchanged. -/
theorem C1_duplicate_blocks_send
    (s : Store) (a b : Nat) (rec : User)
    (hab : a ≠ b) (hrec : findUser s b = some rec)
    (hdup : s.requests.any (requestBetween a b) = true) :
    (sendFriendRequest s a b).1.code = 400 ∧
    ((sendFriendRequest s a b).1.message = "You are already friends with this user." ∨
      (sendFriendRequest s a b).1.message =
        "A friend request already exists between you and this user.") ∧
    (sendFriendRequest s a b).2 = s := by
  have hne : (a == b) = false := beq_eq_false_iff_ne.mpr hab
  have hex : ∃ x ∈ s.requests, requestBetween a b x = true := by
    simpa [List.any_eq_true] using hdup
  by_cases hc : a ∈ rec.friends
  · simp [sendFriendRequest, hne, hrec, hc]
  · simp [sendFriendRequest, hne, hrec, hc, hex]

/-- Witness for C1 on the fixture store: the pending request from 1 to 2
blocks a second send from 1 to 2. -/
theorem C1_witness :
    (sendFriendRequest baseStore 1 2).1.code = 400 ∧
    ((sendFriendRequest baseStore 1 2).1.message = "You are already friends with this user." ∨
      (sendFriendRequest baseStore 1 2).1.message =
        "A friend request already exists between you and this user.") ∧
    (sendFriendRequest baseStore 1 2).2 = baseStore :=
  C1_duplicate_blocks_send baseStore 1 2 (mkUser 2 []) (by decide) (by decide) (by decide)

/-- Stores differing only in the id that will be assigned to the next
created request. -/
def storeNext5 : Store :=
  { users := [mkUser 1 [], mkUser 2 []], requests := [], nextId := 5 }

/-- Same as storeNext5 with a different fresh-id counter. -/
def storeNext7 : Store :=
  { users := [mkUser 1 [], mkUser 2 []], requests := [], nextId := 7 }

/-- C2 counterexample: two successful sends that create requests with
DIFFERENT identifiers (5 and 7) produce IDENTICAL replies (201 with a fixed
message), so the reply does not return the identifier of the newly created
request to the caller. -/
theorem C2_counterexample :
    (sendFriendRequest storeNext5 1 2).1 = (sendFriendRequest storeNext7 1 2).1 ∧
    (sendFriendRequest storeNext5 1 2).2.requests.map FriendRequest.id = [5] ∧
    (sendFriendRequest storeNext7 1 2).2.requests.map FriendRequest.id = [7] := by
  decide

/-- C2 (amended): a successful sendFriendRequest appends exactly one new
FriendRequest with the given sender and recipient and schema-default status
pending, and replies 201 with a fixed success message that does not carry
the new identifier. -/
theorem C2_send_success_creates_pending
    (s : Store) (a b : Nat) (rec : User)
    (hab : a ≠ b) (hrec : findUser s b = some rec)
    (hnf : rec.friends.contains a = false)
    (hnoreq : s.requests.any (requestBetween a b) = false) :
    (sendFriendRequest s a b).1 = ⟨201, "Friend request sent successfully."⟩ ∧
    (sendFriendRequest s a b).2.requests =
      s.requests ++ [{ id := s.nextId, sender := a, recipient := b,
                       Status := RStatus.pending, status := none }] := by
  have hne : (a == b) = false := beq_eq_false_iff_ne.mpr hab
  have hm : a ∉ rec.friends := by simpa using hnf
  have hno : ¬∃ x ∈ s.requests, requestBetween a b x = true := by
    rw [List.any_eq_false] at hnoreq
    rintro ⟨x, hx, hpx⟩
    exact absurd hpx (by simpa using hnoreq x hx)
  simp [sendFriendRequest, hne, hrec, hm, hno]

/-- Witness for the amended C2 on a concrete store. -/
theorem C2_witness :
    (sendFriendRequest storeNext5 1 2).1 = ⟨201, "Friend request sent successfully."⟩ ∧
    (sendFriendRequest storeNext5 1 2).2.requests =
      storeNext5.requests ++ [{ id := storeNext5.nextId, sender := 1, recipient := 2,
                                Status := RStatus.pending, status := none }] :=
  C2_send_success_creates_pending storeNext5 1 2 (mkUser 2 [])
    (by decide) (by decide) (by decide) (by decide)

/-- C3: acceptFriendRequest replies 404 when no request has the given id,
and 403 when the caller is not the stored recipient (whoever else the
caller is); in both cases the whole store is returned unchanged. -/
theorem C3_accept_notfound_forbidden
    (s : Store) (caller rid : Nat) :
    (findRequest s rid = none →
      acceptFriendRequest s caller rid = (⟨404, "Friend request not found"⟩, s)) ∧
    (∀ fr, findRequest s rid = some fr → fr.recipient ≠ caller →
      acceptFriendRequest s caller rid =
        (⟨403, "You are not authorized to accept this friend request"⟩, s)) := by
  constructor
  · intro h
    simp [acceptFriendRequest, h]
  · intro fr hfr hne
    have hb : (fr.recipient != caller) = true := by
      simpa [bne_iff_ne] using hne
    simp [acceptFriendRequest, hfr, hb]

/-- Witness for C3: a missing id yields 404; the sender (user 1) trying to
accept the request addressed to user 2 yields 403; the store is unchanged. -/
theorem C3_witness :
    acceptFriendRequest baseStore 1 99 = (⟨404, "Friend request not found"⟩, baseStore) ∧
    acceptFriendRequest baseStore 1 0 =
      (⟨403, "You are not authorized to accept this friend request"⟩, baseStore) :=
  ⟨(C3_accept_notfound_forbidden baseStore 1 99).1 (by decide),
   (C3_accept_notfound_forbidden baseStore 1 0).2 pendReq (by decide) (by decide)⟩

/-! ### Claims C4, C8, C9, C10 -/

/-- C4 (code bug, evaluated at the failing input): the recipient (user 2)
accepts the pending request id 0. The reply is 200 and both friends arrays
are updated, but the stored schema status field (Status, part_000 line 65)
still reads pending afterwards, and the lowercase non-schema property is
still absent: the write on line 247 targets the lowercase path, which
strict-mode save() never persists. Later reads therefore do NOT see an
accepted status. -/
theorem C4_code_bug_status_not_persisted :
    (acceptFriendRequest baseStore 2 0).1.code = 200 ∧
    (findUser (acceptFriendRequest baseStore 2 0).2 1).map User.friends = some [2] ∧
    (findUser (acceptFriendRequest baseStore 2 0).2 2).map User.friends = some [1] ∧
    (findRequest (acceptFriendRequest baseStore 2 0).2 0).map FriendRequest.Status =
      some RStatus.pending ∧
    (findRequest (acceptFriendRequest baseStore 2 0).2 0).map FriendRequest.status =
      some none := by
  decide

/-- C8: for a distinct pair with the recipient existing, sendFriendRequest
replies with the already-friends 400 error EXACTLY when the recipient
friends array contains the requester, and on that failure the store is
unchanged. -/
theorem C8_already_friends_iff
    (s : Store) (a b : Nat) (rec : User)
    (hab : a ≠ b) (hrec : findUser s b = some rec) :
    ((sendFriendRequest s a b).1 = ⟨400, "You are already friends with this user."⟩ ↔
      a ∈ rec.friends) ∧
    (a ∈ rec.friends → (sendFriendRequest s a b).2 = s) := by
  have hne : (a == b) = false := beq_eq_false_iff_ne.mpr hab
  by_cases hc : a ∈ rec.friends
  · simp [sendFriendRequest, hne, hrec, hc]
  · refine ⟨?_, fun hm => absurd hm hc⟩
    by_cases hd : ∃ x ∈ s.requests, requestBetween a b x = true
    · simp [sendFriendRequest, hne, hrec, hc, hd]
    · simp [sendFriendRequest, hne, hrec, hc, hd]

/-- Fixture: users 1 and 2 already friends with each other, no requests. -/
def friendStore : Store :=
  { users := [mkUser 1 [2], mkUser 2 [1]], requests := [], nextId := 3 }

/-- Witness for C8: user 1 sends to user 2 while already in the friends
array of user 2; the reply is the already-friends 400 and nothing changes. -/
theorem C8_witness :
    ((sendFriendRequest friendStore 1 2).1 =
      ⟨400, "You are already friends with this user."⟩) ∧
    (sendFriendRequest friendStore 1 2).2 = friendStore :=
  ⟨((C8_already_friends_iff friendStore 1 2 (mkUser 2 [1]) (by decide) (by decide)).1).mpr
      (by decide),
   (C8_already_friends_iff friendStore 1 2 (mkUser 2 [1]) (by decide) (by decide)).2
      (by decide)⟩

/-- C9 (code bug, evaluated at the failing input): the fixture store holds
a request addressed to user 2 whose stored schema status is pending, yet
getFriendRequests for user 2 returns the empty list: the query on part_000
line 278 filters on the lowercase path status, which is not a schema path
(the schema declares Status) and is present on no stored document, so with
strictQuery disabled (the Mongoose v9 default) nothing ever matches. -/
theorem C9_code_bug_incoming_listing_empty :
    pendReq.recipient = 2 ∧ pendReq.Status = RStatus.pending ∧
    pendReq ∈ baseStore.requests ∧
    getFriendRequests baseStore 2 = [] := by
  decide

/-- C10: getRecommendedUsers returns the full stored User records of
exactly the matching users (not the caller, not a current friend,
onboarded), with every stored field - in particular the stored email and
password hash are in the reply verbatim - whereas the friends listing
resolves to the public projection only. -/
theorem C10_recommended_returns_full_records (s : Store) (me : User) :
    (∀ u, u ∈ getRecommendedUsers s me ↔
        u ∈ s.users ∧ u.id ≠ me.id ∧ u.id ∉ me.friends ∧ u.isOnboarded = true) ∧
    (∀ u ∈ getRecommendedUsers s me,
        ∃ v ∈ s.users, v = u ∧ u.email = v.email ∧ u.password = v.password) ∧
    (∀ l, getMyFriends s me.id = some l → ∀ p ∈ l, ∃ v ∈ s.users, p = publicOf v) := by
  have hmem : ∀ u, u ∈ getRecommendedUsers s me ↔
      u ∈ s.users ∧ u.id ≠ me.id ∧ u.id ∉ me.friends ∧ u.isOnboarded = true := by
    intro u
    simp [getRecommendedUsers, List.mem_filter, and_assoc]
  refine ⟨hmem, ?_, ?_⟩
  · intro u hu
    exact ⟨u, ((hmem u).mp hu).1, rfl, rfl, rfl⟩
  · intro l hl p hp
    obtain ⟨u0, hu0, rfl⟩ := Option.map_eq_some'.mp hl
    obtain ⟨fid, _hfid, hsome⟩ := List.mem_filterMap.mp hp
    obtain ⟨v, hv, rfl⟩ := Option.map_eq_some'.mp hsome
    exact ⟨v, List.mem_of_find?_eq_some hv, rfl⟩

/-- Witness for C10: in the fixture store, user 2 is recommended to user 1
as a full record. -/
theorem C10_witness :
    mkUser 2 [] ∈ getRecommendedUsers baseStore (mkUser 1 []) :=
  ((C10_recommended_returns_full_records baseStore (mkUser 1 [])).1 (mkUser 2 [])).mpr
    ⟨by decide, by decide, by decide, by decide⟩

/-! ### Claim C6: symmetry invariant -/

/-- The symmetry invariant of the spec: every request whose stored schema
status is accepted has its sender in the friends array of every stored user
carrying the recipient id, and conversely. -/
def SymInv (s : Store) : Prop :=
  ∀ r ∈ s.requests, r.Status = RStatus.accepted →
    (∀ u ∈ s.users, u.id = r.recipient → r.sender ∈ u.friends) ∧
    (∀ u ∈ s.users, u.id = r.sender → r.recipient ∈ u.friends)

theorem symInv_send (s : Store) (a b : Nat) (h : SymInv s) :
    SymInv (sendFriendRequest s a b).2 := by
  unfold sendFriendRequest
  split
  · exact h
  · split
    · exact h
    · split
      · exact h
      · split
        · exact h
        · intro r hr hacc
          rcases List.mem_append.mp hr with hold | hnew
          · exact h r hold hacc
          · rw [List.mem_singleton] at hnew
            subst hnew
            cases hacc

theorem symInv_accept (s : Store) (caller rid : Nat) (h : SymInv s) :
    SymInv (acceptFriendRequest s caller rid).2 := by
  unfold acceptFriendRequest
  split
  · exact h
  · next fr heq =>
    split
    · exact h
    · intro r hr hacc
      have hrmem : r ∈ s.requests := by
        obtain ⟨r0, hr0, hF⟩ := List.mem_map.mp hr
        unfold replaceReqFn at hF
        split at hF
        · rw [← hF]
          exact List.mem_of_find?_eq_some heq
        · rw [← hF]
          exact hr0
      have hold := h r hrmem hacc
      constructor
      · intro u hu hid
        obtain ⟨u1, hu1, rfl⟩ := List.mem_map.mp hu
        obtain ⟨u0, hu0, rfl⟩ := List.mem_map.mp hu1
        have hid0 : u0.id = r.recipient := by
          rw [addFriendFn_keeps_id, addFriendFn_keeps_id] at hid
          exact hid
        exact addFriendFn_friends_subset _ _ _
          (addFriendFn_friends_subset _ _ _ (hold.1 u0 hu0 hid0))
      · intro u hu hid
        obtain ⟨u1, hu1, rfl⟩ := List.mem_map.mp hu
        obtain ⟨u0, hu0, rfl⟩ := List.mem_map.mp hu1
        have hid0 : u0.id = r.sender := by
          rw [addFriendFn_keeps_id, addFriendFn_keeps_id] at hid
          exact hid
        exact addFriendFn_friends_subset _ _ _
          (addFriendFn_friends_subset _ _ _ (hold.2 u0 hu0 hid0))

/-- C6: the symmetry invariant - every request whose stored status is
accepted has sender and recipient in each others friends arrays - holds in
every state reachable from an invariant-satisfying state by any sequence of
sendFriendRequest and acceptFriendRequest operations: sends create only
pending requests, accepts never shrink friends arrays and never change a
stored status. -/
theorem C6_symmetry_invariant (s0 : Store) (ops : List Op) (h : SymInv s0) :
    SymInv (runOps s0 ops) := by
  induction ops generalizing s0 with
  | nil => exact h
  | cons o rest ih =>
    have hstep : SymInv (applyOp s0 o) := by
      cases o with
      | send a b => exact symInv_send s0 a b h
      | accept a r => exact symInv_accept s0 a r h
    exact ih (applyOp s0 o) hstep

/-- Witness for C6: the invariant holds after accepting the fixture request
and sending a further one, starting from the fixture store. -/
theorem C6_witness : SymInv (runOps baseStore [Op.accept 2 0, Op.send 2 1]) :=
  C6_symmetry_invariant baseStore [Op.accept 2 0, Op.send 2 1]
    (by unfold SymInv; decide)

/-! ### Claim C7: request lifecycle -/

theorem send_requests_shape (s : Store) (a b : Nat) :
    (sendFriendRequest s a b).2.requests = s.requests ∨
    (sendFriendRequest s a b).2.requests =
      s.requests ++ [{ id := s.nextId, sender := a, recipient := b }] := by
  unfold sendFriendRequest
  split
  · left; rfl
  · split
    · left; rfl
    · split
      · left; rfl
      · split
        · left; rfl
        · right; rfl

theorem accept_requests_shape (s : Store) (caller rid : Nat) :
    (acceptFriendRequest s caller rid).2.requests = s.requests ∨
    ∃ fr, findRequest s rid = some fr ∧
      (acceptFriendRequest s caller rid).2.requests =
        s.requests.map (replaceReqFn rid fr) := by
  unfold acceptFriendRequest
  split
  · left; rfl
  · next fr heq =>
    split
    · left; rfl
    · right; exact ⟨fr, heq, rfl⟩

/-- C7: lifecycle safety over a single operation, assuming the stored
request ids are pairwise distinct. First: every request present afterwards
either already existed with the same id and the same stored status (no
transition at all), or the operation was a send and the request has status
pending (creation only via send, in pending). Second: every request present
before is still present with its id and stored status unchanged - in
particular no operation changes the status of a request whose status is
accepted or rejected. -/
theorem C7_lifecycle (s : Store) (o : Op)
    (hids : (s.requests.map FriendRequest.id).Nodup) :
    (∀ r ∈ (applyOp s o).requests,
        (∃ r0 ∈ s.requests, r0.id = r.id ∧ r0.Status = r.Status) ∨
        ((∃ a b, o = Op.send a b) ∧ r.Status = RStatus.pending)) ∧
    (∀ r0 ∈ s.requests,
        ∃ r1 ∈ (applyOp s o).requests, r1.id = r0.id ∧ r1.Status = r0.Status) := by
  cases o with
  | send a b =>
    rcases send_requests_shape s a b with hsh | hsh
    · constructor
      · intro r hr
        rw [show (applyOp s (Op.send a b)).requests =
              (sendFriendRequest s a b).2.requests from rfl, hsh] at hr
        exact Or.inl ⟨r, hr, rfl, rfl⟩
      · intro r0 hr0
        refine ⟨r0, ?_, rfl, rfl⟩
        rw [show (applyOp s (Op.send a b)).requests =
              (sendFriendRequest s a b).2.requests from rfl, hsh]
        exact hr0
    · constructor
      · intro r hr
        rw [show (applyOp s (Op.send a b)).requests =
              (sendFriendRequest s a b).2.requests from rfl, hsh] at hr
        rcases List.mem_append.mp hr with hold | hnew
        · exact Or.inl ⟨r, hold, rfl, rfl⟩
        · rw [List.mem_singleton] at hnew
          subst hnew
          exact Or.inr ⟨⟨a, b, rfl⟩, rfl⟩
      · intro r0 hr0
        refine ⟨r0, ?_, rfl, rfl⟩
        rw [show (applyOp s (Op.send a b)).requests =
              (sendFriendRequest s a b).2.requests from rfl, hsh]
        exact List.mem_append_left _ hr0
  | accept caller rid =>
    rcases accept_requests_shape s caller rid with hsh | ⟨fr, heq, hsh⟩
    · constructor
      · intro r hr
        rw [show (applyOp s (Op.accept caller rid)).requests =
              (acceptFriendRequest s caller rid).2.requests from rfl, hsh] at hr
        exact Or.inl ⟨r, hr, rfl, rfl⟩
      · intro r0 hr0
        refine ⟨r0, ?_, rfl, rfl⟩
        rw [show (applyOp s (Op.accept caller rid)).requests =
              (acceptFriendRequest s caller rid).2.requests from rfl, hsh]
        exact hr0
    · have hfrmem : fr ∈ s.requests := List.mem_of_find?_eq_some heq
      have heq2 : s.requests.find? (fun r => r.id == rid) = some fr := heq
      have hfrid : fr.id = rid := by
        have hb := List.find?_some heq2
        simpa using hb
      constructor
      · intro r hr
        rw [show (applyOp s (Op.accept caller rid)).requests =
              (acceptFriendRequest s caller rid).2.requests from rfl, hsh] at hr
        obtain ⟨r0, hr0, hF⟩ := List.mem_map.mp hr
        unfold replaceReqFn at hF
        split at hF
        · subst hF
          exact Or.inl ⟨fr, hfrmem, rfl, rfl⟩
        · subst hF
          exact Or.inl ⟨r0, hr0, rfl, rfl⟩
      · intro r0 hr0
        refine ⟨replaceReqFn rid fr r0, ?_, ?_, ?_⟩
        · rw [show (applyOp s (Op.accept caller rid)).requests =
              (acceptFriendRequest s caller rid).2.requests from rfl, hsh]
          exact List.mem_map_of_mem _ hr0
        · exact replaceReqFn_keeps_id rid fr hfrid r0
        · unfold replaceReqFn
          split
          · next hb =>
            have : fr = r0 :=
              List.inj_on_of_nodup_map hids hfrmem hr0 (by rw [hfrid, eq_of_beq hb])
            rw [this]
          · rfl

/-- Witness for C7 at the fixture store under the accept operation. -/
theorem C7_witness :
    (∀ r ∈ (applyOp baseStore (Op.accept 2 0)).requests,
        (∃ r0 ∈ baseStore.requests, r0.id = r.id ∧ r0.Status = r.Status) ∨
        ((∃ a b, Op.accept 2 0 = Op.send a b) ∧ r.Status = RStatus.pending)) ∧
    (∀ r0 ∈ baseStore.requests,
        ∃ r1 ∈ (applyOp baseStore (Op.accept 2 0)).requests,
          r1.id = r0.id ∧ r1.Status = r0.Status) :=
  C7_lifecycle baseStore (Op.accept 2 0) (by decide)

/-! ### Claim C5: accepting twice is idempotent -/

theorem addFriendFn_self_friends (t x : Nat) (u : User) (hu : u.id = t) :
    x ∈ (addFriendFn t x u).friends := by
  unfold addFriendFn
  rw [hu]
  simp only [beq_self_eq_true, if_true]
  split
  · next hc => simpa using hc
  · simp

theorem addFriendFn_idem (t x : Nat) (u : User) (hx : x ∈ u.friends) :
    addFriendFn t x u = u := by
  unfold addFriendFn
  have hc : u.friends.contains x = true := by simpa using hx
  simp [hc, hx]

theorem count_addFriendFn (t x : Nat) (u : User) (hu : u.id = t)
    (hnd : u.friends.Nodup) :
    (addFriendFn t x u).friends.count x = 1 := by
  unfold addFriendFn
  rw [hu]
  simp only [beq_self_eq_true, if_true]
  split
  · next hc => exact List.count_eq_one_of_mem hnd (by simpa using hc)
  · next hc =>
    have hnm : x ∉ u.friends := by simpa using hc
    simp [List.count_append, List.count_eq_zero_of_not_mem hnm]

theorem accept_success (s : Store) (rid : Nat) (fr : FriendRequest)
    (hfr : findRequest s rid = some fr) :
    acceptFriendRequest s fr.recipient rid =
      (⟨200, "Friend request accepted"⟩,
        { users := (s.users.map (addFriendFn fr.sender fr.recipient)).map
            (addFriendFn fr.recipient fr.sender),
          requests := s.requests.map (replaceReqFn rid fr),
          nextId := s.nextId }) := by
  unfold acceptFriendRequest
  rw [hfr]
  simp [saveStrictMode, addToSetFriends]

/-- C5: when the request rid goes from a to b (distinct), both users exist
and their friends arrays have no duplicates, accepting twice in a row as
the recipient b succeeds again on the second call (200) and leaves b
exactly once in the friends array of a and a exactly once in the friends
array of b. -/
theorem C5_accept_idempotent
    (s : Store) (rid a b : Nat) (fr : FriendRequest) (ua ub : User)
    (hfr : findRequest s rid = some fr)
    (hsend : fr.sender = a) (hrecv : fr.recipient = b) (hab : a ≠ b)
    (hua : findUser s a = some ua) (hub : findUser s b = some ub)
    (hnda : ua.friends.Nodup) (hndb : ub.friends.Nodup) :
    (acceptFriendRequest (acceptFriendRequest s b rid).2 b rid).1.code = 200 ∧
    (findUser (acceptFriendRequest (acceptFriendRequest s b rid).2 b rid).2 a).map
        (fun u => u.friends.count b) = some 1 ∧
    (findUser (acceptFriendRequest (acceptFriendRequest s b rid).2 b rid).2 b).map
        (fun u => u.friends.count a) = some 1 := by
  subst hsend
  subst hrecv
  have hfrid : fr.id = rid := by
    have hb := List.find?_some (show s.requests.find? (fun r => r.id == rid) = some fr from hfr)
    simpa using hb
  have hua_id : ua.id = fr.sender := by
    have hb := List.find?_some (show s.users.find? (fun u => u.id == fr.sender) = some ua from hua)
    simpa using hb
  have hub_id : ub.id = fr.recipient := by
    have hb := List.find?_some (show s.users.find? (fun u => u.id == fr.recipient) = some ub from hub)
    simpa using hb
  have hfid : ∀ u, (addFriendFn fr.sender fr.recipient u).id = u.id :=
    fun u => addFriendFn_keeps_id _ _ u
  have hgid : ∀ u, (addFriendFn fr.recipient fr.sender u).id = u.id :=
    fun u => addFriendFn_keeps_id _ _ u
  have hRfn : ∀ x, (replaceReqFn rid fr x).id = x.id :=
    replaceReqFn_keeps_id rid fr hfrid
  have h1 := accept_success s rid fr hfr
  rw [h1]
  set S1 : Store :=
    { users := (s.users.map (addFriendFn fr.sender fr.recipient)).map
        (addFriendFn fr.recipient fr.sender),
      requests := s.requests.map (replaceReqFn rid fr),
      nextId := s.nextId } with hS1
  have hfind1 : findRequest S1 rid = some fr := by
    show (s.requests.map (replaceReqFn rid fr)).find? (fun r => r.id == rid) = some fr
    rw [find?_map_key FriendRequest.id (replaceReqFn rid fr) hRfn s.requests rid,
      show List.find? (fun x => x.id == rid) s.requests = some fr from hfr]
    simp [replaceReqFn]
  have h2 := accept_success S1 rid fr hfind1
  rw [h2]
  refine ⟨rfl, ?_, ?_⟩
  · have e : findUser
        { users := (S1.users.map (addFriendFn fr.sender fr.recipient)).map
            (addFriendFn fr.recipient fr.sender),
          requests := S1.requests.map (replaceReqFn rid fr),
          nextId := S1.nextId } fr.sender =
        some (addFriendFn fr.recipient fr.sender (addFriendFn fr.sender fr.recipient
          (addFriendFn fr.recipient fr.sender (addFriendFn fr.sender fr.recipient ua)))) := by
      show ((((s.users.map (addFriendFn fr.sender fr.recipient)).map
          (addFriendFn fr.recipient fr.sender)).map (addFriendFn fr.sender fr.recipient)).map
          (addFriendFn fr.recipient fr.sender)).find? (fun u => u.id == fr.sender) = _
      rw [find?_map_key User.id _ hgid, find?_map_key User.id _ hfid,
        find?_map_key User.id _ hgid, find?_map_key User.id _ hfid,
        show List.find? (fun x => x.id == fr.sender) s.users = some ua from hua]
      rfl
    rw [e]
    have hg1 : addFriendFn fr.recipient fr.sender (addFriendFn fr.sender fr.recipient ua) =
        addFriendFn fr.sender fr.recipient ua := by
      apply addFriendFn_other
      rw [addFriendFn_keeps_id, hua_id]
      exact hab
    have hf1 : addFriendFn fr.sender fr.recipient (addFriendFn fr.sender fr.recipient ua) =
        addFriendFn fr.sender fr.recipient ua :=
      addFriendFn_idem _ _ _ (addFriendFn_self_friends _ _ _ hua_id)
    rw [hg1, hf1, hg1]
    show some ((addFriendFn fr.sender fr.recipient ua).friends.count fr.recipient) = some 1
    rw [count_addFriendFn fr.sender fr.recipient ua hua_id hnda]
  · have e : findUser
        { users := (S1.users.map (addFriendFn fr.sender fr.recipient)).map
            (addFriendFn fr.recipient fr.sender),
          requests := S1.requests.map (replaceReqFn rid fr),
          nextId := S1.nextId } fr.recipient =
        some (addFriendFn fr.recipient fr.sender (addFriendFn fr.sender fr.recipient
          (addFriendFn fr.recipient fr.sender (addFriendFn fr.sender fr.recipient ub)))) := by
      show ((((s.users.map (addFriendFn fr.sender fr.recipient)).map
          (addFriendFn fr.recipient fr.sender)).map (addFriendFn fr.sender fr.recipient)).map
          (addFriendFn fr.recipient fr.sender)).find? (fun u => u.id == fr.recipient) = _
      rw [find?_map_key User.id _ hgid, find?_map_key User.id _ hfid,
        find?_map_key User.id _ hgid, find?_map_key User.id _ hfid,
        show List.find? (fun x => x.id == fr.recipient) s.users = some ub from hub]
      rfl
    rw [e]
    have hf2 : addFriendFn fr.sender fr.recipient ub = ub := by
      apply addFriendFn_other
      rw [hub_id]
      exact fun hcontra => hab hcontra.symm
    have hf3 : addFriendFn fr.sender fr.recipient
        (addFriendFn fr.recipient fr.sender ub) =
        addFriendFn fr.recipient fr.sender ub := by
      apply addFriendFn_other
      rw [addFriendFn_keeps_id, hub_id]
      exact fun hcontra => hab hcontra.symm
    have hg3 : addFriendFn fr.recipient fr.sender
        (addFriendFn fr.recipient fr.sender ub) =
        addFriendFn fr.recipient fr.sender ub :=
      addFriendFn_idem _ _ _ (addFriendFn_self_friends _ _ _ hub_id)
    rw [hf2, hf3, hg3]
    show some ((addFriendFn fr.recipient fr.sender ub).friends.count fr.sender) = some 1
    rw [count_addFriendFn fr.recipient fr.sender ub hub_id hndb]

/-- Witness for C5: accepting the fixture request twice as user 2 replies
200 the second time and leaves each user exactly once in the other ones
friends array. -/
theorem C5_witness :
    (acceptFriendRequest (acceptFriendRequest baseStore 2 0).2 2 0).1.code = 200 ∧
    (findUser (acceptFriendRequest (acceptFriendRequest baseStore 2 0).2 2 0).2 1).map
        (fun u => u.friends.count 2) = some 1 ∧
    (findUser (acceptFriendRequest (acceptFriendRequest baseStore 2 0).2 2 0).2 2).map
        (fun u => u.friends.count 1) = some 1 :=
  C5_accept_idempotent baseStore 0 1 2 pendReq (mkUser 1 []) (mkUser 2 [])
    (by decide) (by decide) (by decide) (by decide) (by decide) (by decide)
    (by decide) (by decide)
